import Mathlib

/-!
Verification of the bdd-isaacsim-exec repository: a shallow embedding of the
BDD lifecycle hooks in `examples/environment.py` and the utility functions in
`src/bdd_isaacsim_exec/utils.py`, together with theorems settling the frozen
claims about them.

External collaborators (the behave runner, rdflib, numpy's random stream, the
Isaac Sim API, the filesystem) are modelled as explicit parameters: the random
stream as a function from attempt index to draw, filesystem queries as boolean
predicates, and opaque external calls (`before_all_isaac`,
`find_unique_string_name`, `get_valid_var_name`, ...) as abstract functions.
-/

/-! ## Python-dict model

Python dict assignment `d[k] = v` replaces the value at `k` keeping its
position when `k` is present, and appends `(k, v)` at the end otherwise.
All dicts built by this code are free of duplicate keys, so replacing the
first occurrence is exact. -/

def dictSet {α : Type} : List (String × α) → String → α → List (String × α)
  | [], k, v => [(k, v)]
  | (k', v') :: rest, k, v =>
    if k' = k then (k, v) :: rest else (k', v') :: dictSet rest k v

def dictGet {α : Type} : List (String × α) → String → Option α
  | [], _ => none
  | (k', v') :: rest, k => if k' = k then some v' else dictGet rest k

/-! ## utils.py: `_get_unique_id_str` (lines 39-51)

```python
_CACHED_ID_STRS = set()

def _get_unique_id_str(id_str: str, max_iteration: int = 100) -> str:
    iter_count = 0
    while True:
        if iter_count > max_iteration:
            raise RuntimeError(f"unable to find unique string after ...")
        iter_count += 1
        unique_str = id_str + f"{np.random.randint(65536):04x}"
        if unique_str in _CACHED_ID_STRS:
            continue
        _CACHED_ID_STRS.add(unique_str)
        return unique_str
```

The global cache is threaded explicitly; the numpy random stream is a
function `draws` from the attempt index to the drawn number (reduced mod
65536, the bound passed to `np.random.randint`). -/

/-- Lowercase hexadecimal digit, as produced by Python's `x` format code. -/
def hexDigitChar (n : Nat) : Char :=
  if n < 10 then Char.ofNat (48 + n) else Char.ofNat (87 + n)

/-- Python's `f"{n:04x}"` for `n < 65536`: exactly four lowercase hex digits,
zero padded. -/
def toHex4 (n : Nat) : String :=
  String.mk
    [hexDigitChar (n / 4096 % 16), hexDigitChar (n / 256 % 16),
     hexDigitChar (n / 16 % 16), hexDigitChar (n % 16)]

/-- One `while True` pass of `_get_unique_id_str`.  The Python loop checks
`iter_count > max_iteration` before each attempt; `fuel` maintains the
invariant `fuel = max_iteration + 1 - iter_count`, so `fuel = 0` holds exactly
when `iter_count > max_iteration` and the `RuntimeError` is raised. -/
def uniqueIdGo (idStr : String) (draws : Nat → Nat) (cache : List String)
    (maxIteration : Nat) : Nat → Nat → Except String (String × List String)
  | _, 0 =>
    .error ("unable to find unique string after " ++ toString maxIteration ++ " iterations")
  | iterCount, fuel + 1 =>
    let uniqueStr := idStr ++ toHex4 (draws iterCount % 65536)
    if uniqueStr ∈ cache then
      uniqueIdGo idStr draws cache maxIteration (iterCount + 1) fuel
    else
      .ok (uniqueStr, uniqueStr :: cache)

/-- `_get_unique_id_str` with the default `max_iteration = 100`: starts at
`iter_count = 0`, hence fuel `101`.  Returns the fresh string and the grown
cache, or the raised `RuntimeError` message. -/
def _get_unique_id_str (idStr : String) (draws : Nat → Nat)
    (cache : List String) : Except String (String × List String) :=
  uniqueIdGo idStr draws cache 100 0 101

/-- A sequence of calls to `_get_unique_id_str`, each with its own id string
and random stream, threading the module-global `_CACHED_ID_STRS` cache.
Returns the final cache and the list of successfully returned strings. -/
def runCalls (cache : List String) :
    List (String × (Nat → Nat)) → List String × List String
  | [] => (cache, [])
  | (idStr, draws) :: rest =>
    match _get_unique_id_str idStr draws cache with
    | .ok (s, cache') =>
      let r := runCalls cache' rest
      (r.1, s :: r.2)
    | .error _ => runCalls cache rest

/-! ## environment.py: configuration, model parsing and `before_all`
(lines 37-95)

Python attribute values that appear in the config file and in the hardcoded
defaults are booleans, integers and strings; `Val` also distinguishes
Python's `True` from truthy non-booleans, since the livestream assertions use
`is True`. -/

inductive Val where
  | vbool : Bool → Val
  | vint : Int → Val
  | vstr : String → Val
  | vnone : Val
deriving DecidableEq, Repr

/-- Python truthiness of a `Val` (`if context.use_livestream:`). -/
def Val.truthy : Val → Bool
  | .vbool b => b
  | .vint n => n != 0
  | .vstr s => s != ""
  | .vnone => false

/-- The shared mutable behave context, restricted to what `before_all` and
`read_config_file` touch: the dynamic attribute mapping (written by
`setattr`) and `context.model_graph`.  The graph is modelled as the list of
triples (abstract tokens) merged into the `ConjunctiveGraph`. -/
structure Ctx where
  attrs : List (String × Val)
  model_graph : Option (List Nat)
deriving Repr

/-- Outcome of `g.parse(url, format=fmt)` for one document of `MODELS`:
success with the document's triples, a `json.JSONDecodeError`, or any other
exception raised by the fetch/parse. -/
inductive ParseOutcome where
  | ok : List Nat → ParseOutcome
  | jsonDecodeError : String → ParseOutcome
  | otherError : String → ParseOutcome
deriving DecidableEq, Repr

/-- How a run of `before_all` can end abnormally. -/
inductive BAErr where
  | assertConfigMissing
  | valueErrorYaml
  | exited : Nat → BAErr
  | raised : String → BAErr
  | assertRenderLivestream
  | assertHeadlessLivestream
deriving DecidableEq, Repr

/-- Inputs of one `before_all` run that come from the outside world: whether
`config.yaml` exists, its parsed key/value pairs (`none` models a
`yaml.YAMLError`), and for each `(url, format)` pair of `MODELS` the outcome
of parsing that document. -/
structure BAInput where
  configExists : Bool
  configParse : Option (List (String × Val))
  models : List (String × String × ParseOutcome)

/-- `setattr(context, key, value)`. -/
def ctxSet (c : Ctx) (k : String) (v : Val) : Ctx :=
  { c with attrs := dictSet c.attrs k v }

/-- `getattr(context, key, default)`. -/
def getattrD (c : Ctx) (k : String) (dv : Val) : Val :=
  match dictGet c.attrs k with
  | some v => v
  | none => dv

/-- Truthiness of `getattr(context, key)` (the attribute is always present
where this is used). -/
def truthyAttr (c : Ctx) (k : String) : Bool :=
  match dictGet c.attrs k with
  | some v => v.truthy
  | none => false

/-- `read_config_file(context, "config.yaml")`: asserts the file exists,
parses it with `yaml.safe_load` (a failure is re-raised as `ValueError`) and
copies every key/value pair onto the context with `setattr`. -/
def read_config_file (c : Ctx) (configExists : Bool)
    (parsed : Option (List (String × Val))) : Except BAErr Ctx :=
  if !configExists then .error .assertConfigMissing
  else
    match parsed with
    | none => .error .valueErrorYaml
    | some config =>
      .ok (config.foldl (fun a p => ctxSet a p.1 p.2) c)

/-- The `for url, fmt in MODELS.items()` loop of `before_all`: each document
is parsed into the one graph `g`; a `JSONDecodeError` is caught and turned
into `sys.exit(1)`, any other exception propagates. -/
def parseLoop (g : List Nat) :
    List (String × String × ParseOutcome) → Except BAErr (List Nat)
  | [] => .ok g
  | (_, _, .ok ts) :: rest => parseLoop (g ++ ts) rest
  | (_, _, .jsonDecodeError _) :: _ => .error (.exited 1)
  | (_, _, .otherError m) :: _ => .error (.raised m)

/-- `setattr(context, k, getattr(context, k, dv))`: the default applied to one
key. -/
def setDefault (c : Ctx) (k : String) (dv : Val) : Ctx :=
  ctxSet c k (getattrD c k dv)

/-- Defaults applied in source order. -/
def setDefaults (c : Ctx) (ds : List (String × Val)) : Ctx :=
  ds.foldl (fun a p => setDefault a p.1 p.2) c

/-- The three unconditional defaults of `before_all`, in source order. -/
def coreDefaults : List (String × Val) :=
  [("use_livestream", .vbool false), ("headless", .vbool true), ("render", .vbool false)]

/-- The defaults applied inside `if context.use_livestream:`, in source
order. -/
def livestreamDefaults : List (String × Val) :=
  [("width", .vint 1280), ("height", .vint 720),
   ("window_width", .vint 1920), ("window_height", .vint 1080),
   ("hide_ui", .vbool false), ("renderer", .vstr "RayTracedLighting"),
   ("display_options", .vint 3286), ("draw_mouse", .vbool true),
   ("protocol", .vstr "ws"), ("enable_nginx", .vbool false)]

/-- The tail of `before_all` after the model graph is built: the three core
defaults, then — only when `context.use_livestream` is truthy — the
livestream defaults followed by the two `is True` assertions
(`assert context.render is True`, then `assert context.headless is True`).
The context keeps its mutations when an assertion fires. -/
def applyDefaults (c2 : Ctx) : Ctx × Option BAErr :=
  let c3 := setDefaults c2 coreDefaults
  if truthyAttr c3 "use_livestream" then
    let c4 := setDefaults c3 livestreamDefaults
    (c4,
      if dictGet c4.attrs "render" ≠ some (Val.vbool true) then
        some .assertRenderLivestream
      else if dictGet c4.attrs "headless" ≠ some (Val.vbool true) then
        some .assertHeadlessLivestream
      else none)
  else (c3, none)

/-- `before_all(context)`: resolver installation and `before_all_isaac` are
opaque external calls; everything else is embedded.  Returns the context as
mutated so far together with the abnormal outcome, if any. -/
def before_all (inp : BAInput) : Ctx × Option BAErr :=
  let c0 : Ctx := { attrs := [], model_graph := none }
  match read_config_file c0 inp.configExists inp.configParse with
  | .error e => (c0, some e)
  | .ok c1 =>
    match parseLoop [] inp.models with
    | .error e => (c1, some e)
    | .ok g => applyDefaults { c1 with model_graph := some g }

/-- The triples a parse outcome contributes to the merged graph. -/
def okTriples : ParseOutcome → List Nat
  | .ok ts => ts
  | _ => []

/-- The context state after `read_config_file` and the parse loop: the config
pairs copied onto an empty context, with the merged graph installed. -/
def loadedCtx (cfg : List (String × Val)) (g : List Nat) : Ctx :=
  { cfg.foldl (fun a p => ctxSet a p.1 p.2)
      ({ attrs := [], model_graph := none } : Ctx) with model_graph := some g }

/-! ## environment.py: per-feature log lifecycle (lines 85-120)

The remaining hooks accumulate `context.log_data`, a Python dict keyed by
scenario name.  `PyVal` models the JSON-serializable Python values involved;
`time.process_time()` is modelled by a clock function from call index to
value, with `FCtx.tick` counting the calls made so far. -/

inductive PyVal where
  | pstr : String → PyVal
  | pint : Int → PyVal
  | plist : List PyVal → PyVal
  | pdict : List (String × PyVal) → PyVal

/-- The keys of a Python dict value (used to state which keys the log
holds). -/
def pyKeys : PyVal → List String
  | .pdict d => d.map Prod.fst
  | _ => []

/-- A behave step as seen by the hooks: `step.name`, `step.keyword` and, by
`after_step` time, `step.status.name`. -/
structure BStep where
  name : String
  keyword : String
  statusName : String

/-- A behave scenario: its name and its executed steps. -/
structure BScenario where
  name : String
  steps : List BStep

/-- The context attributes used by the feature-level hooks. -/
structure FCtx where
  log_data : List (String × PyVal)
  scenario_start_time : Int
  step_debug_info : List (String × PyVal)
  step_start : Int
  scenarioName : String
  tick : Nat

/-- One `time.process_time()` call. -/
def procTime (clock : Nat → Int) (c : FCtx) : Int × FCtx :=
  (clock c.tick, { c with tick := c.tick + 1 })

/-- `before_feature`: `context.log_data = {}`. -/
def before_feature (c : FCtx) : FCtx :=
  { c with log_data := [] }

/-- `before_scenario`: behave has set `context.scenario`; the hook installs
the empty clause list and records the start time.  `before_scenario_isaac`
is opaque. -/
def before_scenario (clock : Nat → Int) (c : FCtx) (s : BScenario) : FCtx :=
  let c := { c with scenarioName := s.name }
  let c := { c with log_data := dictSet c.log_data s.name (.pdict [("clauses", .plist [])]) }
  let t := procTime clock c
  { t.2 with scenario_start_time := t.1 }

/-- `before_step`. -/
def before_step (clock : Nat → Int) (c : FCtx) (st : BStep) : FCtx :=
  let c := { c with step_debug_info :=
    [("name", .pstr st.name), ("keyword", .pstr st.keyword), ("fail_info", .pdict [])] }
  let t := procTime clock c
  { t.2 with step_start := t.1 }

/-- `after_step`: fills `exec_time` and `status` into `step_debug_info` and
appends it to `log_data[context.scenario.name]["clauses"]`.  A missing key or
a non-dict/non-list value would raise (`KeyError`/`TypeError`) — modelled as
`.error`. -/
def after_step (clock : Nat → Int) (c : FCtx) (st : BStep) : Except String FCtx :=
  let t := procTime clock c
  let c := t.2
  let sdi := dictSet c.step_debug_info "exec_time" (.pint (t.1 - c.step_start))
  let sdi := dictSet sdi "status" (.pstr st.statusName)
  let c := { c with step_debug_info := sdi }
  match dictGet c.log_data c.scenarioName with
  | some (PyVal.pdict sd) =>
    match dictGet sd "clauses" with
    | some (PyVal.plist cl) =>
      .ok { c with log_data := dictSet c.log_data c.scenarioName (.pdict (dictSet sd "clauses" (.plist (cl ++ [.pdict sdi])))) }
    | _ => .error "KeyError"
  | _ => .error "KeyError"

/-- `after_scenario`: stores the scenario execution time.
`after_scenario_isaac` is opaque. -/
def after_scenario (clock : Nat → Int) (c : FCtx) (s : BScenario) : Except String FCtx :=
  let t := procTime clock c
  let c := t.2
  match dictGet c.log_data s.name with
  | some (PyVal.pdict sd) =>
    .ok { c with log_data := dictSet c.log_data s.name (.pdict (dictSet sd "exec_time" (.pint (t.1 - c.scenario_start_time)))) }
  | _ => .error "KeyError"

/-- The behave runner executing the steps of one scenario: `before_step` and
`after_step` around each. -/
def runSteps (clock : Nat → Int) : FCtx → List BStep → Except String FCtx
  | c, [] => .ok c
  | c, st :: rest => do
    let c1 := before_step clock c st
    let c2 ← after_step clock c1 st
    runSteps clock c2 rest

/-- One scenario: `before_scenario`, its steps, `after_scenario`. -/
def runScenario (clock : Nat → Int) (c : FCtx) (s : BScenario) : Except String FCtx := do
  let c1 := before_scenario clock c s
  let c2 ← runSteps clock c1 s.steps
  after_scenario clock c2 s

/-- The scenarios of a feature, in order. -/
def runScenarios (clock : Nat → Int) : FCtx → List BScenario → Except String FCtx
  | c, [] => .ok c
  | c, s :: rest => do
    let c1 ← runScenario clock c s
    runScenarios clock c1 rest

/-- A whole feature as the behave runner drives it: `before_feature`, then
every scenario with its steps. -/
def runFeature (clock : Nat → Int) (c : FCtx) (ss : List BScenario) : Except String FCtx :=
  runScenarios clock (before_feature c) ss

/-- `after_feature`: serializes `context.log_data` with `json.dumps` into
`logs/log_data-<valid var name of feature>-<timestamp>.json`.  Returns the
file name and the serialized data (`json.dumps` preserves dict keys and
order, so the content is the `log_data` value itself). -/
def after_feature (c : FCtx) (validVar : String → String)
    (featureName timestamp : String) : String × PyVal :=
  ("logs/log_data-" ++ validVar featureName ++ "-" ++ timestamp ++ ".json",
   .pdict c.log_data)

/-- The per-step clause dict as `after_step` appends it. -/
def mkClause (st : BStep) (t : Int) : PyVal :=
  .pdict [("name", .pstr st.name), ("keyword", .pstr st.keyword),
          ("fail_info", .pdict []), ("exec_time", .pint t),
          ("status", .pstr st.statusName)]

/-! ## utils.py: `capture_camera_image` (lines 190-209)

A numpy ndarray is modelled as a nested tree: `item` a scalar, `axis` one
array axis.  A rectangular array of n dimensions has `axis` nodes down to
depth n; `ndim` reads the depth off the first spine, as the shape of a
rectangular array determines it. -/

inductive NDA (α : Type) where
  | item : α → NDA α
  | axis : List (NDA α) → NDA α

/-- `arr.ndim` for a rectangular array. -/
def NDA.ndim {α : Type} : NDA α → Nat
  | .item _ => 0
  | .axis [] => 1
  | .axis (x :: _) => NDA.ndim x + 1

/-- The numpy basic slice `arr[:, :, :3]` as applied by
`capture_camera_image` (only reached for `ndim ≥ 3`): all of axes 0 and 1,
the first three entries of axis 2, deeper axes untouched. -/
def NDA.take3Axis2 {α : Type} : NDA α → NDA α
  | .axis rows =>
    .axis (rows.map fun r =>
      match r with
      | .axis cols =>
        .axis (cols.map fun px =>
          match px with
          | .axis chans => .axis (chans.take 3)
          | px => px)
      | r => r)
  | a => a

/-- An H x W x C image (e.g. the RGBA frames `camera.get_rgba()` returns) as
an `NDA`: a list of rows, each a list of pixels, each a list of channel
values. -/
def img3 {α : Type} (rows : List (List (List α))) : NDA α :=
  .axis (rows.map fun r => .axis (r.map fun px => .axis (px.map .item)))

inductive CamErr where
  | noImage : String → CamErr
  | invalidImage : String → CamErr
deriving DecidableEq, Repr

/-- `capture_camera_image(camera)`: `camera.get_rgba()` is the externally
produced `rgba` (`none` models Python `None`); a missing or under-3-dimensional
image raises `RuntimeError`, otherwise the alpha channel is stripped with
`rgba[:, :, :3]`. -/
def capture_camera_image {α : Type} (cameraName : String)
    (rgba : Option (NDA α)) : Except CamErr (NDA α) :=
  match rgba with
  | none => .error (.noImage cameraName)
  | some a => if a.ndim < 3 then .error (.invalidImage cameraName) else .ok a.take3Axis2

/-! ## utils.py: `save_frames` (220-233) and `create_video_from_frames`
(256-279) -/

/-- `os.path.join` for the relative path components used here. -/
def pathJoin (a b : String) : String := a ++ "/" ++ b

/-- Python's `s.endswith(suffix)`: a suffix test on the character
sequences. -/
def strEndsWith (s suffix : String) : Bool := suffix.data.isSuffixOf s.data

/-- Big-endian decimal digits of `n` (empty for 0), with `fuel ≥ n`. -/
def decDigitsAux : Nat → Nat → List Char
  | 0, _ => []
  | fuel + 1, n =>
    if n = 0 then [] else decDigitsAux fuel (n / 10) ++ [Nat.digitChar (n % 10)]

/-- Python's decimal rendering of a natural number. -/
def decRepr (n : Nat) : List Char :=
  if n = 0 then ['0'] else decDigitsAux n n

/-- Python's `f"{i:05d}"`: the decimal digits of `i`, zero padded on the left
to width 5. -/
def pad5 (i : Nat) : String :=
  String.mk (List.replicate (5 - (decRepr i).length) '0' ++ decRepr i)

/-- The file name `save_frames` gives the frame at index `i`. -/
def frameFileName (i : Nat) : String := "frame_" ++ pad5 i ++ ".jpg"

/-- `save_frames(frames, output_dir)`: one `save_single_frame` submission per
`enumerate(frames)` entry, writing frame `i` to
`os.path.join(output_dir, f"frame_{i:05d}.jpg")`.  The thread pool only
parallelizes the disk writes; the name-to-frame association is fixed at
submission. -/
def save_frames {α : Type} (frames : List α) (output_dir : String) :
    List (String × α) :=
  frames.enum.map (fun p => (pathJoin output_dir (frameFileName p.1), p.2))

structure VideoResult where
  videoPath : String
  framesWritten : List String
  removedFrames : List String
deriving DecidableEq, Repr

/-- `create_video_from_frames`: lists `<root>/frames/<camera>`, keeps the
`.jpg` files, sorts them, raises `ValueError` when none remain, and otherwise
writes them in order into `<root>/vids/<valid scenario name>-<camera>.mp4`.
`listing` is the `os.listdir` result (arbitrary order); `validVar` is the
external `get_valid_var_name`; the cv2 reader/writer is opaque, so the result
records the video path and the frame files written, in order. -/
def create_video_from_frames (listing : List String) (validVar : String → String)
    (capture_root_path scenario_name : String) (_frame_rate : Nat)
    (camera_name : String) (cleanup_frames : Bool) : Except String VideoResult :=
  let frames_dir := pathJoin (pathJoin capture_root_path "frames") camera_name
  let vid_dir := pathJoin capture_root_path "vids"
  let video_path := pathJoin vid_dir (validVar scenario_name ++ "-" ++ camera_name ++ ".mp4")
  let frame_files := (listing.filter (fun f => strEndsWith f ".jpg")).mergeSort
    (fun a b => decide (a ≤ b))
  if frame_files = [] then
    .error ("No frames found in directory: " ++ frames_dir)
  else
    .ok { videoPath := video_path,
          framesWritten := frame_files.map (pathJoin frames_dir),
          removedFrames :=
            if cleanup_frames then frame_files.map (pathJoin frames_dir) else [] }

/-! ## utils.py: `create_rigid_prim_in_scene` (lines 78-160)

The RDF-backed `ObjectModel`/`AgentModel` is modelled by the pieces the
function reads; the external collaborators (valid-name mangling, the numpy
random stream, stage-unit conversion, `find_unique_string_name`, the assets
root, `os.path.exists`) are abstract parameters bundled in `CrpEnv`. -/

/-- The model-type URIs the function distinguishes. -/
inductive MType where
  | usdFile
  | resPath
  | isaacRes
  | sysRes
  | pyModuleAttr
  | otherType : Nat → MType
deriving DecidableEq, Repr

/-- A value in the `prim_configs` dict (opaque payload; only the keys and the
applied conversions matter to the claims). -/
inductive CfgVal where
  | cnum : Int → CfgVal
  | carr : List Int → CfgVal
  | cstr : String → CfgVal
deriving DecidableEq, Repr

/-- The slice of an `ObjectModel`/`AgentModel` that
`create_rigid_prim_in_scene` reads. -/
structure CrpModel where
  /-- `model.id.n3(namespace_manager=ns_manager)`. -/
  idStr : String
  /-- `model.model_types`. -/
  model_types : List MType
  /-- `model.model_type_to_id[t]`, the ids of the attached models of type t. -/
  model_type_to_id : MType → List String
  /-- `model.models[mid].get_attr(key=URI_SIM_PRED_PATH)`. -/
  pathAttr : String → Option String
  /-- whether `import_attr_from_model(model.models[mid])` yields a subclass
  of `RigidPrim` or `Articulation`. -/
  pyClsOk : String → Bool
  /-- `model.get_attr(key=URI_SIM_PRED_HAS_CONFIG)`; `none` when absent or
  not a dict. -/
  configs : Option (List (String × CfgVal))

/-- The external collaborators of `create_rigid_prim_in_scene`. -/
structure CrpEnv where
  /-- `get_valid_var_name` (rdf_utils). -/
  validVar : String → String
  /-- the numpy random stream consumed by `_get_unique_id_str`. -/
  draws : Nat → Nat
  /-- `check_or_convert_ndarray(v) / get_stage_units()`. -/
  stageDiv : CfgVal → CfgVal
  /-- `np.random.uniform(bounds) / get_stage_units()`. -/
  randPos : CfgVal
  /-- `find_unique_string_name` over `is_prim_path_valid`. -/
  findUniquePrim : String → String
  /-- `find_unique_string_name` over `scene.object_exists`. -/
  findUniqueName : String → String
  /-- `get_assets_root_path()`; `none` makes `get_cached_assets_root_path`
  raise `RuntimeError`. -/
  assetsRoot : Option String
  /-- `os.path.exists`. -/
  pathExists : String → Bool

/-- The failures `create_rigid_prim_in_scene` can raise. -/
inductive CrpErr where
  | assertNoConfigs
  | uniqueIdError : String → CrpErr
  | assertNoResPathType
  | assertPathNotLoaded
  | assetsRootNotFound
  | assertSysPathMissing
  | unhandledUsdResTypes
  | assertNoPyClass
  | unhandledModelTypes
deriving DecidableEq, Repr

inductive AddedKind where
  | usdRigidPrim : String → AddedKind
  | pyClassInstance : String → AddedKind
deriving DecidableEq, Repr

/-- What `scene.add(...)` receives on the success paths — the only point
where anything is registered in the scene. -/
structure SceneAdded where
  primPath : String
  objName : String
  kind : AddedKind
  prim_configs : List (String × CfgVal)
deriving DecidableEq, Repr

/-- `create_rigid_prim_in_scene(scene, ns_manager, model, prim_prefix)`.
Returns the possibly grown `_CACHED_ID_STRS` cache and either the raised
failure or the `scene.add` registration. -/
def create_rigid_prim_in_scene (env : CrpEnv) (cache : List String)
    (model : CrpModel) (prim_pfx : String) :
    List String × Except CrpErr SceneAdded :=
  let id_str := env.validVar model.idStr
  match model.configs with
  | none => (cache, .error .assertNoConfigs)
  | some model_configs =>
    let pc := model_configs
    let pc := match dictGet pc "scale" with
      | some v => dictSet pc "scale" (env.stageDiv v)
      | none => pc
    let pc := match dictGet pc "color" with
      | some v => dictSet pc "color" (env.stageDiv v)
      | none => pc
    let pc := match dictGet pc "position" with
      | some _ => pc
      | none => dictSet pc "position" env.randPos
    match _get_unique_id_str id_str env.draws cache with
    | .error m => (cache, .error (.uniqueIdError m))
    | .ok (uid, cache') =>
      let prim_path := env.findUniquePrim (prim_pfx ++ uid)
      let obj_name := env.findUniqueName uid
      if MType.usdFile ∈ model.model_types then
        if MType.resPath ∉ model.model_types then
          (cache', .error .assertNoResPathType)
        else
          match (model.model_type_to_id MType.resPath).findSome? model.pathAttr with
          | none => (cache', .error .assertPathNotLoaded)
          | some asset_path =>
            if MType.isaacRes ∈ model.model_types then
              match env.assetsRoot with
              | none => (cache', .error .assetsRootNotFound)
              | some root =>
                (cache', .ok ⟨prim_path, obj_name, .usdRigidPrim (root ++ asset_path), pc⟩)
            else if MType.sysRes ∈ model.model_types then
              if env.pathExists asset_path then
                (cache', .ok ⟨prim_path, obj_name, .usdRigidPrim asset_path, pc⟩)
              else (cache', .error .assertSysPathMissing)
            else (cache', .error .unhandledUsdResTypes)
      else if MType.pyModuleAttr ∈ model.model_types then
        match (model.model_type_to_id MType.pyModuleAttr).find? model.pyClsOk with
        | none => (cache', .error .assertNoPyClass)
        | some mid => (cache', .ok ⟨prim_path, obj_name, .pyClassInstance mid, pc⟩)
      else (cache', .error .unhandledModelTypes)

theorem dictGet_dictSet_self {α : Type} (d : List (String × α)) (k : String) (v : α) :
    dictGet (dictSet d k v) k = some v := by
  induction d with
  | nil => simp [dictSet, dictGet]
  | cons hd tl ih =>
    obtain ⟨k', v'⟩ := hd
    by_cases h : k' = k
    · simp [dictSet, dictGet, h]
    · simp [dictSet, dictGet, h, ih]

theorem dictGet_dictSet_ne {α : Type} (d : List (String × α)) {k k' : String}
    (h : k ≠ k') (v : α) : dictGet (dictSet d k v) k' = dictGet d k' := by
  induction d with
  | nil => simp [dictSet, dictGet, h]
  | cons hd tl ih =>
    obtain ⟨k'', v''⟩ := hd
    by_cases h2 : k'' = k
    · simp [dictSet, dictGet, h2, h]
    · by_cases h3 : k'' = k'
      · simp [dictSet, dictGet, h2, h3, Ne.symm h]
      · simp [dictSet, dictGet, h2, h3, ih]

theorem dictSet_of_get_none {α : Type} {d : List (String × α)} {k : String}
    (h : dictGet d k = none) (v : α) : dictSet d k v = d ++ [(k, v)] := by
  induction d with
  | nil => simp [dictSet]
  | cons hd tl ih =>
    obtain ⟨k', v'⟩ := hd
    by_cases h2 : k' = k
    · simp [dictGet, h2] at h
    · simp [dictGet, h2] at h
      simp [dictSet, h2, ih h]

theorem dictGet_append_of_none {α : Type} {d₁ : List (String × α)}
    (d₂ : List (String × α)) {k : String} (h : dictGet d₁ k = none) :
    dictGet (d₁ ++ d₂) k = dictGet d₂ k := by
  induction d₁ with
  | nil => simp
  | cons hd tl ih =>
    obtain ⟨k', v'⟩ := hd
    by_cases h2 : k' = k
    · simp [dictGet, h2] at h
    · simp [dictGet, h2] at h ⊢
      exact ih h

theorem dictGet_append_of_some {α : Type} {d₁ : List (String × α)}
    (d₂ : List (String × α)) {k : String} {v : α} (h : dictGet d₁ k = some v) :
    dictGet (d₁ ++ d₂) k = some v := by
  induction d₁ with
  | nil => simp [dictGet] at h
  | cons hd tl ih =>
    obtain ⟨k', v'⟩ := hd
    by_cases h2 : k' = k
    · simp [dictGet, h2] at h ⊢
      exact h
    · simp [dictGet, h2] at h ⊢
      exact ih h

theorem uniqueIdGo_ok {idStr : String} {draws : Nat → Nat} {cache : List String}
    {maxIteration : Nat} :
    ∀ {fuel iterCount : Nat} {s : String} {cache' : List String},
      uniqueIdGo idStr draws cache maxIteration iterCount fuel = .ok (s, cache') →
      s ∉ cache ∧ cache' = s :: cache ∧ ∃ d, d < 65536 ∧ s = idStr ++ toHex4 d := by
  intro fuel
  induction fuel with
  | zero => intro ic s c' h; simp [uniqueIdGo] at h
  | succ k ih =>
    intro ic s c' h
    rw [uniqueIdGo] at h
    by_cases hmem : idStr ++ toHex4 (draws ic % 65536) ∈ cache
    · simp only [hmem, if_pos] at h
      exact ih h
    · simp only [hmem, if_neg, not_false_iff] at h
      obtain ⟨hs, hc⟩ : idStr ++ toHex4 (draws ic % 65536) = s ∧
          (idStr ++ toHex4 (draws ic % 65536)) :: cache = c' := by
        simpa using h
      subst hs
      exact ⟨hmem, hc.symm, draws ic % 65536, Nat.mod_lt _ (by norm_num), rfl⟩


theorem uniqueIdGo_cases (idStr : String) (draws : Nat → Nat) (maxIteration : Nat) :
    ∀ (fuel iterCount : Nat) (cache : List String),
      (∃ d, d < 65536 ∧
        uniqueIdGo idStr draws cache maxIteration iterCount fuel =
          .ok (idStr ++ toHex4 d, (idStr ++ toHex4 d) :: cache) ∧
        (idStr ++ toHex4 d) ∉ cache) ∨
      uniqueIdGo idStr draws cache maxIteration iterCount fuel =
        .error ("unable to find unique string after " ++ toString maxIteration ++ " iterations") := by
  intro fuel
  induction fuel with
  | zero => intro ic cache; right; rfl
  | succ k ih =>
    intro ic cache
    by_cases hmem : idStr ++ toHex4 (draws ic % 65536) ∈ cache
    · rw [uniqueIdGo]
      simp only [hmem, if_pos]
      exact ih (ic + 1) cache
    · left
      refine ⟨draws ic % 65536, Nat.mod_lt _ (by norm_num), ?_, hmem⟩
      rw [uniqueIdGo]
      simp only [hmem, if_neg, not_false_iff]

/-- C3: `_get_unique_id_str` terminates on every input: it either returns
`id_str` plus a fresh 4-hex-digit suffix — a string not already in the
cache, which becomes cached — or raises `RuntimeError` once the iteration
count exceeds `max_iteration` (default 100).  There is no other exit from
the collision search. -/
theorem uniqueIdStr_terminates (idStr : String) (draws : Nat → Nat) (cache : List String) :
    (∃ d, d < 65536 ∧
      _get_unique_id_str idStr draws cache =
        .ok (idStr ++ toHex4 d, (idStr ++ toHex4 d) :: cache) ∧
      (idStr ++ toHex4 d) ∉ cache ∧ (toHex4 d).length = 4) ∨
    _get_unique_id_str idStr draws cache =
      .error ("unable to find unique string after 100 iterations") := by
  rcases uniqueIdGo_cases idStr draws 100 101 0 cache with ⟨d, hd, hok, hfresh⟩ | herr
  · exact Or.inl ⟨d, hd, hok, hfresh, rfl⟩
  · right
    simpa using herr

/-- C9: across any sequence of successful `_get_unique_id_str` calls the
returned strings are pairwise distinct; each is absent from the cache the
call started from and present in the final cache, and the cache only ever
grows. -/
theorem uniqueIdStr_returns_distinct (calls : List (String × (Nat → Nat))) (cache₀ : List String) :
    (runCalls cache₀ calls).2.Nodup ∧
    (∀ s ∈ (runCalls cache₀ calls).2, s ∉ cache₀ ∧ s ∈ (runCalls cache₀ calls).1) ∧
    cache₀ ⊆ (runCalls cache₀ calls).1 := by
  induction calls generalizing cache₀ with
  | nil =>
    refine ⟨List.nodup_nil, ?_, fun a ha => ha⟩
    intro s hs
    simp [runCalls] at hs
  | cons hd tl ih =>
    obtain ⟨idStr, draws⟩ := hd
    rcases hres : _get_unique_id_str idStr draws cache₀ with m | p
    · have hrw : runCalls cache₀ ((idStr, draws) :: tl) = runCalls cache₀ tl := by
        simp [runCalls, hres]
      rw [hrw]
      exact ih cache₀
    · obtain ⟨s, cache'⟩ := p
      obtain ⟨hfresh, hgrow, -⟩ := uniqueIdGo_ok hres
      have hrw : runCalls cache₀ ((idStr, draws) :: tl) =
          ((runCalls cache' tl).1, s :: (runCalls cache' tl).2) := by
        simp [runCalls, hres]
      obtain ⟨hnd, hmem, hsub⟩ := ih cache'
      have hs_c' : s ∈ cache' := by rw [hgrow]; exact List.mem_cons_self s cache₀
      have hc0_c' : cache₀ ⊆ cache' := by rw [hgrow]; exact List.subset_cons_self s cache₀
      rw [hrw]
      refine ⟨?_, ?_, ?_⟩
      · refine List.Nodup.cons ?_ hnd
        intro hs
        exact (hmem s hs).1 hs_c'
      · intro t ht
        rcases List.mem_cons.mp ht with rfl | ht
        · exact ⟨hfresh, hsub hs_c'⟩
        · exact ⟨fun h0 => (hmem t ht).1 (hc0_c' h0), (hmem t ht).2⟩
      · exact fun a ha => hsub (hc0_c' ha)

/-- C5: `capture_camera_image` raises exactly when the camera returns no
image (`None`) or an array of fewer than 3 dimensions, and returns normally
in every other case. -/
theorem captureCameraImage_error_iff (cameraName : String) (rgba : Option (NDA Int)) :
    ((∃ e, capture_camera_image cameraName rgba = .error e) ↔
      rgba = none ∨ ∃ a, rgba = some a ∧ a.ndim < 3) ∧
    (∀ a, rgba = some a → ¬a.ndim < 3 →
      ∃ v, capture_camera_image cameraName rgba = .ok v) := by
  constructor
  · constructor
    · intro ⟨e, he⟩
      match rgba with
      | none => exact Or.inl rfl
      | some a =>
        right
        refine ⟨a, rfl, ?_⟩
        by_contra hge
        simp [capture_camera_image, hge] at he
    · intro h
      rcases h with rfl | ⟨a, rfl, hlt⟩
      · exact ⟨.noImage cameraName, rfl⟩
      · exact ⟨.invalidImage cameraName, by simp [capture_camera_image, hlt]⟩
  · intro a ha hge
    subst ha
    exact ⟨a.take3Axis2, by simp [capture_camera_image, hge]⟩

/-- Witness for C5 at concrete inputs: a `None` image raises, and a 3-d
image does not. -/
theorem captureCameraImage_error_iff_witness :
    (∃ e, capture_camera_image "cam" (none : Option (NDA Int)) = .error e) ∧
    (∃ v, capture_camera_image "cam" (some (img3 [[[(1 : Int), 2, 3, 4]]])) = .ok v) :=
  ⟨(captureCameraImage_error_iff "cam" none).1.mpr (Or.inl rfl),
   (captureCameraImage_error_iff "cam" (some (img3 [[[(1 : Int), 2, 3, 4]]]))).2
     (img3 [[[(1 : Int), 2, 3, 4]]]) rfl (by decide)⟩

/-- C6: for an H x W x C image of at least 3 dimensions, the returned image
is the input restricted to its first three channels along the last axis;
height and width are unchanged. -/
theorem captureCameraImage_strips_alpha (cameraName : String)
    (rows : List (List (List Int))) (h : ¬(img3 rows).ndim < 3) :
    capture_camera_image cameraName (some (img3 rows)) =
      .ok (img3 (rows.map (fun r => r.map (fun px => px.take 3)))) ∧
    (rows.map (fun r => r.map (fun px => px.take 3))).length = rows.length ∧
    ∀ r ∈ rows, (r.map (fun px => px.take 3)).length = r.length := by
  refine ⟨?_, by simp, fun r _ => by simp⟩
  simp only [capture_camera_image, h, if_neg, not_false_iff]
  congr 1
  simp only [img3, NDA.take3Axis2, List.map_map]
  congr 1
  apply List.map_congr_left
  intro r _
  show NDA.axis ((r.map (fun px => NDA.axis (px.map NDA.item))).map _) =
    NDA.axis ((r.map (fun px => px.take 3)).map (fun px => NDA.axis (px.map NDA.item)))
  congr 1
  rw [List.map_map, List.map_map]
  apply List.map_congr_left
  intro px _
  show NDA.axis ((px.map NDA.item).take 3) = NDA.axis ((px.take 3).map NDA.item)
  congr 1
  exact (List.map_take NDA.item px 3).symm

/-- Witness for C6 at a concrete RGBA image. -/
theorem captureCameraImage_strips_alpha_witness :
    capture_camera_image "cam" (some (img3 [[[(1 : Int), 2, 3, 4], [5, 6, 7, 8]]])) =
      .ok (img3 ([[[(1 : Int), 2, 3, 4], [5, 6, 7, 8]]].map (fun r => r.map (fun px => px.take 3)))) :=
  (captureCameraImage_strips_alpha "cam" [[[(1 : Int), 2, 3, 4], [5, 6, 7, 8]]] (by decide)).1

/-- C4: when a model's types contain neither the USD-file type nor the
Python module-attribute type, `create_rigid_prim_in_scene` raises the
unresolved-model-type `RuntimeError`; and when the USD-file type is present
but the asset path cannot be resolved — the `URI_SIM_TYPE_RES_PATH` type
missing, no path attribute loaded, a system-resource path that does not
exist, or an unhandled resource type — the call fails rather than
registering anything in the scene (only the `.ok` branch registers). -/
theorem createRigidPrim_failure_modes (env : CrpEnv) (cache : List String)
    (model : CrpModel) (prim_pfx : String) (cfg : List (String × CfgVal))
    (uid : String) (cache'' : List String)
    (hcfg : model.configs = some cfg)
    (huid : _get_unique_id_str (env.validVar model.idStr) env.draws cache = .ok (uid, cache'')) :
    (MType.usdFile ∉ model.model_types → MType.pyModuleAttr ∉ model.model_types →
      (create_rigid_prim_in_scene env cache model prim_pfx).2 = .error .unhandledModelTypes) ∧
    (MType.usdFile ∈ model.model_types →
      (MType.resPath ∉ model.model_types →
        (create_rigid_prim_in_scene env cache model prim_pfx).2 = .error .assertNoResPathType) ∧
      (MType.resPath ∈ model.model_types →
        (model.model_type_to_id MType.resPath).findSome? model.pathAttr = none →
        (create_rigid_prim_in_scene env cache model prim_pfx).2 = .error .assertPathNotLoaded) ∧
      (∀ asset_path, MType.resPath ∈ model.model_types →
        (model.model_type_to_id MType.resPath).findSome? model.pathAttr = some asset_path →
        MType.isaacRes ∉ model.model_types → MType.sysRes ∈ model.model_types →
        env.pathExists asset_path = false →
        (create_rigid_prim_in_scene env cache model prim_pfx).2 = .error .assertSysPathMissing) ∧
      (∀ asset_path, MType.resPath ∈ model.model_types →
        (model.model_type_to_id MType.resPath).findSome? model.pathAttr = some asset_path →
        MType.isaacRes ∉ model.model_types → MType.sysRes ∉ model.model_types →
        (create_rigid_prim_in_scene env cache model prim_pfx).2 = .error .unhandledUsdResTypes)) := by
  refine ⟨?_, ?_⟩
  · intro husd hpy
    simp [create_rigid_prim_in_scene, hcfg, huid, husd, hpy]
  · intro husd
    refine ⟨?_, ?_, ?_, ?_⟩
    · intro hres
      simp [create_rigid_prim_in_scene, hcfg, huid, husd, hres]
    · intro hres hpath
      simp [create_rigid_prim_in_scene, hcfg, huid, husd, hres, hpath]
    · intro asset_path hres hpath hisaac hsys hexists
      simp [create_rigid_prim_in_scene, hcfg, huid, husd, hres, hpath, hisaac, hsys, hexists]
    · intro asset_path hres hpath hisaac hsys
      simp [create_rigid_prim_in_scene, hcfg, huid, husd, hres, hpath, hisaac, hsys]

/-- Witness for C4: a model whose only type is unhandled fails with the
unresolved-model-type error. -/
theorem createRigidPrim_failure_modes_witness :
    (create_rigid_prim_in_scene ⟨id, fun _ => 0, id, .cnum 0, id, id, none, fun _ => false⟩ []
      ⟨"obj", [MType.otherType 0], fun _ => [], fun _ => none, fun _ => false, some []⟩
      "/World/").2 = .error CrpErr.unhandledModelTypes :=
  (createRigidPrim_failure_modes
    ⟨id, fun _ => 0, id, .cnum 0, id, id, none, fun _ => false⟩ []
    ⟨"obj", [MType.otherType 0], fun _ => [], fun _ => none, fun _ => false, some []⟩
    "/World/" [] "obj0000" ["obj0000"] rfl rfl).1 (by decide) (by decide)

theorem decDigitsAux_length_le :
    ∀ (fuel n k : Nat), n < 10 ^ k → (decDigitsAux fuel n).length ≤ k := by
  intro fuel
  induction fuel with
  | zero => intro n k _; simp [decDigitsAux]
  | succ f ih =>
    intro n k h
    rw [decDigitsAux]
    by_cases h0 : n = 0
    · simp [h0]
    · simp only [h0, if_neg, not_false_iff, List.length_append, List.length_cons,
        List.length_nil]
      rcases k with _ | k'
      · have h1 : n < 1 := by simpa using h
        omega
      · have hdiv : n / 10 < 10 ^ k' := by
          rw [Nat.div_lt_iff_lt_mul (by norm_num)]
          calc n < 10 ^ (k' + 1) := h
          _ = 10 ^ k' * 10 := by rw [pow_succ]
        have := ih (n / 10) k' hdiv
        omega

theorem pad5_length {i : Nat} (h : i < 100000) : (pad5 i).length = 5 := by
  have hle : (decRepr i).length ≤ 5 := by
    unfold decRepr
    by_cases h0 : i = 0
    · simp [h0]
    · simp only [h0, if_neg, not_false_iff]
      exact decDigitsAux_length_le i i 5 (by norm_num; omega)
  show (String.mk (List.replicate (5 - (decRepr i).length) '0' ++ decRepr i)).length = 5
  rw [show ∀ l : List Char, (String.mk l).length = l.length from fun _ => rfl]
  rw [List.length_append, List.length_replicate]
  omega

/-- C8: `save_frames` submits the frame at index `i` for writing to
`frame_NNNNN.jpg` (index zero-padded to 5 digits) under the given frames
directory, one file per frame; `create_video_from_frames` writes the
per-camera video to `<capture root>/vids/<valid scenario name>-<camera>.mp4`,
muxing the `.jpg` files of the camera's frames directory in sorted filename
order. -/
theorem framesAndVideo_layout {α : Type} (frames : List α) (output_dir : String)
    (listing : List String) (validVar : String → String)
    (capture_root scenario_name : String) (frame_rate : Nat) (camera_name : String)
    (cleanup : Bool)
    (hne : listing.filter (fun f => strEndsWith f ".jpg") ≠ []) :
    (save_frames frames output_dir).length = frames.length ∧
    (∀ i (hi : i < frames.length),
      (save_frames frames output_dir)[i]? =
        some (pathJoin output_dir ("frame_" ++ pad5 i ++ ".jpg"), frames[i])) ∧
    (∀ i, i < 100000 → (pad5 i).length = 5) ∧
    (∃ r, create_video_from_frames listing validVar capture_root scenario_name
        frame_rate camera_name cleanup = .ok r ∧
      r.videoPath =
        capture_root ++ "/vids/" ++ validVar scenario_name ++ "-" ++ camera_name ++ ".mp4" ∧
      ∃ sorted, sorted.Perm (listing.filter (fun f => strEndsWith f ".jpg")) ∧
        List.Sorted (· ≤ ·) sorted ∧
        r.framesWritten =
          sorted.map (pathJoin (capture_root ++ "/frames/" ++ camera_name))) := by
  refine ⟨by simp [save_frames], ?_, fun i hi => pad5_length hi, ?_⟩
  · intro i hi
    simp [save_frames, frameFileName, List.getElem?_eq_getElem hi, List.enum]
  · have hmsne : (listing.filter (fun f => strEndsWith f ".jpg")).mergeSort
        (fun a b => decide (a ≤ b)) ≠ [] := by
      intro h0
      apply hne
      have hp := List.mergeSort_perm (listing.filter (fun f => strEndsWith f ".jpg"))
        (fun a b => decide (a ≤ b))
      rw [h0] at hp
      exact hp.symm.eq_nil
    have hok : create_video_from_frames listing validVar capture_root scenario_name
        frame_rate camera_name cleanup = .ok
          ⟨pathJoin (pathJoin capture_root "vids")
              (validVar scenario_name ++ "-" ++ camera_name ++ ".mp4"),
            ((listing.filter (fun f => strEndsWith f ".jpg")).mergeSort
              (fun a b => decide (a ≤ b))).map
              (pathJoin (pathJoin (pathJoin capture_root "frames") camera_name)),
            if cleanup then
              ((listing.filter (fun f => strEndsWith f ".jpg")).mergeSort
                (fun a b => decide (a ≤ b))).map
                (pathJoin (pathJoin (pathJoin capture_root "frames") camera_name))
            else []⟩ := by
      simp only [create_video_from_frames]
      rw [if_neg hmsne]
    refine ⟨_, hok, ?_, (listing.filter (fun f => strEndsWith f ".jpg")).mergeSort
      (fun a b => decide (a ≤ b)), List.mergeSort_perm _ _, ?_, ?_⟩
    · show pathJoin (pathJoin capture_root "vids")
        (validVar scenario_name ++ "-" ++ camera_name ++ ".mp4") =
        capture_root ++ "/vids/" ++ validVar scenario_name ++ "-" ++ camera_name ++ ".mp4"
      simp only [pathJoin, String.append_assoc]
      rw [← String.append_assoc "vids", ← String.append_assoc "/"]
      rfl
    · rw [List.mergeSort_eq_insertionSort (· ≤ ·)]
      exact List.sorted_insertionSort _ _
    · show ((listing.filter (fun f => strEndsWith f ".jpg")).mergeSort
          (fun a b => decide (a ≤ b))).map
          (pathJoin (pathJoin (pathJoin capture_root "frames") camera_name)) = _
      have hdir : pathJoin (pathJoin capture_root "frames") camera_name =
          capture_root ++ "/frames/" ++ camera_name := by
        simp only [pathJoin, String.append_assoc]
        rw [← String.append_assoc "frames", ← String.append_assoc "/"]
        rfl
      rw [hdir]

/-- Witness for C8 at concrete inputs. -/
theorem framesAndVideo_layout_witness :
    (save_frames [7, 8] "captures/run/frames/cam" : List (String × Nat)).length = 2 ∧
    (∃ r, create_video_from_frames ["b.jpg", "a.jpg", "x.txt"] id
        "captures/run" "scenario one" 20 "cam" false = .ok r ∧
      r.videoPath = "captures/run" ++ "/vids/" ++ id "scenario one" ++ "-" ++ "cam" ++ ".mp4" ∧
      ∃ sorted, sorted.Perm (["b.jpg", "a.jpg", "x.txt"].filter (fun f => strEndsWith f ".jpg")) ∧
        List.Sorted (· ≤ ·) sorted ∧
        r.framesWritten = sorted.map (pathJoin ("captures/run" ++ "/frames/" ++ "cam"))) := by
  have h := framesAndVideo_layout [7, 8] "captures/run/frames/cam"
    ["b.jpg", "a.jpg", "x.txt"] id "captures/run" "scenario one" 20 "cam" false
    (by decide)
  exact ⟨h.1, h.2.2.2⟩

theorem ctxFold_get_not_mem :
    ∀ (cfg : List (String × Val)) (c : Ctx) (k : String), k ∉ cfg.map Prod.fst →
      dictGet ((cfg.foldl (fun a p => ctxSet a p.1 p.2) c)).attrs k = dictGet c.attrs k := by
  intro cfg
  induction cfg with
  | nil => intro c k _; rfl
  | cons hd tl ih =>
    intro c k hk
    obtain ⟨k0, v0⟩ := hd
    simp only [List.map_cons, List.mem_cons, not_or] at hk
    rw [List.foldl_cons, ih (ctxSet c k0 v0) k hk.2]
    exact dictGet_dictSet_ne c.attrs (fun h => hk.1 h.symm) v0

theorem ctxFold_get_mem :
    ∀ (cfg : List (String × Val)) (c : Ctx) (k : String) (v : Val),
      (cfg.map Prod.fst).Nodup → (k, v) ∈ cfg →
      dictGet ((cfg.foldl (fun a p => ctxSet a p.1 p.2) c)).attrs k = some v := by
  intro cfg
  induction cfg with
  | nil => intro c k v _ h; simp at h
  | cons hd tl ih =>
    intro c k v hnd hmem
    obtain ⟨k0, v0⟩ := hd
    simp only [List.map_cons, List.nodup_cons] at hnd
    rcases List.mem_cons.mp hmem with heq | htl
    · obtain ⟨hk, hv⟩ := Prod.mk.injEq .. ▸ heq
      subst hk; subst hv
      rw [List.foldl_cons, ctxFold_get_not_mem tl _ k hnd.1]
      exact dictGet_dictSet_self c.attrs k v
    · rw [List.foldl_cons]
      exact ih (ctxSet c k0 v0) k v hnd.2 htl

theorem setDefault_get_some {c : Ctx} {k : String} {v : Val} (k' : String) (dv : Val)
    (h : dictGet c.attrs k = some v) :
    dictGet (setDefault c k' dv).attrs k = some v := by
  by_cases hk : k' = k
  · subst hk
    show dictGet (dictSet c.attrs k' (getattrD c k' dv)) k' = some v
    rw [dictGet_dictSet_self]
    simp [getattrD, h]
  · show dictGet (dictSet c.attrs k' (getattrD c k' dv)) k = some v
    rw [dictGet_dictSet_ne _ hk]
    exact h

theorem setDefaults_get_some :
    ∀ (ds : List (String × Val)) (c : Ctx) (k : String) (v : Val),
      dictGet c.attrs k = some v → dictGet (setDefaults c ds).attrs k = some v := by
  intro ds
  induction ds with
  | nil => intro c k v h; exact h
  | cons hd tl ih =>
    intro c k v h
    exact ih (setDefault c hd.1 hd.2) k v (setDefault_get_some hd.1 hd.2 h)

theorem setDefaults_get_not_mem :
    ∀ (ds : List (String × Val)) (c : Ctx) (k : String), k ∉ ds.map Prod.fst →
      dictGet (setDefaults c ds).attrs k = dictGet c.attrs k := by
  intro ds
  induction ds with
  | nil => intro c k _; rfl
  | cons hd tl ih =>
    intro c k hk
    simp only [List.map_cons, List.mem_cons, not_or] at hk
    rw [show setDefaults c (hd :: tl) = setDefaults (setDefault c hd.1 hd.2) tl from rfl,
      ih _ k hk.2]
    exact dictGet_dictSet_ne c.attrs (fun h => hk.1 h.symm) _

theorem setDefaults_fresh :
    ∀ (ds : List (String × Val)) (c : Ctx) (k : String) (dv : Val),
      (ds.map Prod.fst).Nodup → dictGet c.attrs k = none → (k, dv) ∈ ds →
      dictGet (setDefaults c ds).attrs k = some dv := by
  intro ds
  induction ds with
  | nil => intro c k dv _ _ h; simp at h
  | cons hd tl ih =>
    intro c k dv hnd hnone hmem
    obtain ⟨k0, dv0⟩ := hd
    simp only [List.map_cons, List.nodup_cons] at hnd
    rcases List.mem_cons.mp hmem with heq | htl
    · obtain ⟨hk, hv⟩ := Prod.mk.injEq .. ▸ heq
      subst hk; subst hv
      refine setDefaults_get_some tl _ k dv ?_
      show dictGet (dictSet c.attrs k (getattrD c k dv)) k = some dv
      rw [dictGet_dictSet_self]
      simp [getattrD, hnone]
    · have hne : k0 ≠ k := by
        intro h
        subst h
        exact hnd.1 (List.mem_map.mpr ⟨(k0, dv), htl, rfl⟩)
      refine ih (setDefault c k0 dv0) k dv hnd.2 ?_ htl
      show dictGet (dictSet c.attrs k0 (getattrD c k0 dv0)) k = none
      rw [dictGet_dictSet_ne _ hne]
      exact hnone

theorem setDefaults_model_graph :
    ∀ (ds : List (String × Val)) (c : Ctx),
      (setDefaults c ds).model_graph = c.model_graph := by
  intro ds
  induction ds with
  | nil => intro c; rfl
  | cons hd tl ih => intro c; exact ih (setDefault c hd.1 hd.2)

theorem truthyAttr_eq_of_get_eq {c c' : Ctx} {k : String}
    (h : dictGet c.attrs k = dictGet c'.attrs k) : truthyAttr c k = truthyAttr c' k := by
  unfold truthyAttr
  rw [h]

theorem parseLoop_all_ok :
    ∀ (ms : List (String × String × ParseOutcome)) (g : List Nat),
      (∀ x ∈ ms, ∃ ts, x.2.2 = ParseOutcome.ok ts) →
      parseLoop g ms = .ok (ms.foldl (fun a x => a ++ okTriples x.2.2) g) := by
  intro ms
  induction ms with
  | nil => intro g _; rfl
  | cons hd tl ih =>
    intro g hok
    obtain ⟨u, f, o⟩ := hd
    obtain ⟨ts, hts⟩ := hok (u, f, o) (List.mem_cons_self _ _)
    simp only at hts
    subst hts
    rw [show parseLoop g ((u, f, ParseOutcome.ok ts) :: tl) = parseLoop (g ++ ts) tl from rfl]
    rw [ih (g ++ ts) (fun x hx => hok x (List.mem_cons_of_mem _ hx))]
    rfl

theorem parseLoop_first_jde :
    ∀ (pre : List (String × String × ParseOutcome)) (g : List Nat) (u f m : String)
      (post : List (String × String × ParseOutcome)),
      (∀ x ∈ pre, ∃ ts, x.2.2 = ParseOutcome.ok ts) →
      parseLoop g (pre ++ (u, f, ParseOutcome.jsonDecodeError m) :: post) =
        .error (.exited 1) := by
  intro pre
  induction pre with
  | nil => intro g u f m post _; rfl
  | cons hd tl ih =>
    intro g u f m post hok
    obtain ⟨u0, f0, o0⟩ := hd
    obtain ⟨ts, hts⟩ := hok (u0, f0, o0) (List.mem_cons_self _ _)
    simp only at hts
    subst hts
    exact ih (g ++ ts) u f m post (fun x hx => hok x (List.mem_cons_of_mem _ hx))

theorem parseLoop_first_other :
    ∀ (pre : List (String × String × ParseOutcome)) (g : List Nat) (u f m : String)
      (post : List (String × String × ParseOutcome)),
      (∀ x ∈ pre, ∃ ts, x.2.2 = ParseOutcome.ok ts) →
      parseLoop g (pre ++ (u, f, ParseOutcome.otherError m) :: post) =
        .error (.raised m) := by
  intro pre
  induction pre with
  | nil => intro g u f m post _; rfl
  | cons hd tl ih =>
    intro g u f m post hok
    obtain ⟨u0, f0, o0⟩ := hd
    obtain ⟨ts, hts⟩ := hok (u0, f0, o0) (List.mem_cons_self _ _)
    simp only at hts
    subst hts
    exact ih (g ++ ts) u f m post (fun x hx => hok x (List.mem_cons_of_mem _ hx))

theorem before_all_eq {inp : BAInput} {cfg : List (String × Val)} {g : List Nat}
    (hex : inp.configExists = true) (hcfg : inp.configParse = some cfg)
    (hpl : parseLoop [] inp.models = .ok g) :
    before_all inp = applyDefaults (loadedCtx cfg g) := by
  unfold before_all read_config_file
  rw [hex, hcfg]
  simp only [Bool.not_true, Bool.false_eq_true, if_false, hpl]
  rfl

theorem before_all_parse_err {inp : BAInput} {cfg : List (String × Val)} {e : BAErr}
    (hex : inp.configExists = true) (hcfg : inp.configParse = some cfg)
    (hpe : parseLoop [] inp.models = .error e) :
    (before_all inp).2 = some e := by
  unfold before_all read_config_file
  rw [hex, hcfg]
  simp only [Bool.not_true, Bool.false_eq_true, if_false, hpe]

/-- C2 counterexample: a parse error that is not a `JSONDecodeError`
propagates out of `before_all` instead of exiting the process — the claim
that any parse error exits is false. -/
theorem beforeAll_other_error_propagates :
    (before_all ⟨true, some [], [("u", "json-ld", ParseOutcome.otherError "boom")]⟩).2 =
      some (BAErr.raised "boom") ∧
    BAErr.raised "boom" ≠ BAErr.exited 1 :=
  ⟨rfl, by decide⟩

/-- C2 (amended): `before_all` merges every successfully parsed document
into the single graph bound to `context.model_graph`; when the first failing
parse raises a `JSONDecodeError` the process exits with code 1, while any
other parse error propagates as the raised exception. -/
theorem beforeAll_parse_behavior (inp : BAInput) (cfg : List (String × Val))
    (hex : inp.configExists = true) (hcfg : inp.configParse = some cfg) :
    ((∀ x ∈ inp.models, ∃ ts, x.2.2 = ParseOutcome.ok ts) →
      (before_all inp).1.model_graph =
        some (inp.models.foldl (fun a x => a ++ okTriples x.2.2) [])) ∧
    (∀ pre u f m post, inp.models = pre ++ (u, f, ParseOutcome.jsonDecodeError m) :: post →
      (∀ x ∈ pre, ∃ ts, x.2.2 = ParseOutcome.ok ts) →
      (before_all inp).2 = some (BAErr.exited 1)) ∧
    (∀ pre u f m post, inp.models = pre ++ (u, f, ParseOutcome.otherError m) :: post →
      (∀ x ∈ pre, ∃ ts, x.2.2 = ParseOutcome.ok ts) →
      (before_all inp).2 = some (BAErr.raised m)) := by
  refine ⟨?_, ?_, ?_⟩
  · intro hok
    rw [before_all_eq hex hcfg (parseLoop_all_ok inp.models [] hok)]
    unfold applyDefaults
    by_cases ht : truthyAttr (setDefaults (loadedCtx cfg
        (inp.models.foldl (fun a x => a ++ okTriples x.2.2) [])) coreDefaults) "use_livestream"
    · simp only [ht, if_true]
      rw [setDefaults_model_graph, setDefaults_model_graph]
      rfl
    · simp only [ht, Bool.false_eq_true, if_false]
      rw [setDefaults_model_graph]
      rfl
  · intro pre u f m post hms hok
    refine before_all_parse_err hex hcfg ?_
    rw [hms]
    exact parseLoop_first_jde pre [] u f m post hok
  · intro pre u f m post hms hok
    refine before_all_parse_err hex hcfg ?_
    rw [hms]
    exact parseLoop_first_other pre [] u f m post hok

/-- Witness for C2 (amended) at concrete inputs: an all-ok model list yields
the merged graph, and a list whose head fails with `JSONDecodeError` exits
with code 1. -/
theorem beforeAll_parse_behavior_witness :
    (before_all ⟨true, some [], [("u", "json-ld", ParseOutcome.ok [5])]⟩).1.model_graph =
      some [5] ∧
    (before_all ⟨true, some [], [("u", "json-ld", ParseOutcome.jsonDecodeError "bad")]⟩).2 =
      some (BAErr.exited 1) := by
  constructor
  · have h := (beforeAll_parse_behavior ⟨true, some [], [("u", "json-ld", ParseOutcome.ok [5])]⟩
      [] rfl rfl).1 (by intro x hx; simp at hx; rw [hx]; exact ⟨[5], rfl⟩)
    simpa using h
  · exact (beforeAll_parse_behavior
      ⟨true, some [], [("u", "json-ld", ParseOutcome.jsonDecodeError "bad")]⟩ [] rfl rfl).2.1
      [] "u" "json-ld" "bad" [] rfl (by simp)

/-- C7 counterexample: with an empty config file and `use_livestream`
resolving to its default `False`, `before_all` leaves `width` — a key the
code knows a default (1280) for — entirely unset, so the claim that every
known-default key absent from the file receives its default is false. -/
theorem beforeAll_width_not_defaulted :
    dictGet (before_all ⟨true, some [], [("u", "json-ld", ParseOutcome.ok [])]⟩).1.attrs
      "width" = none ∧
    dictGet (before_all ⟨true, some [], [("u", "json-ld", ParseOutcome.ok [])]⟩).1.attrs
      "use_livestream" = some (Val.vbool false) := by
  constructor
  · rfl
  · rfl

/-- C7 (amended): `read_config_file` copies every config key verbatim onto
the context and `before_all` preserves those values; the keys
`use_livestream`, `headless` and `render` receive their hardcoded defaults
(False, True, False) when absent from the file; the livestream keys
(`width`, `height`, `window_width`, `window_height`, `hide_ui`, `renderer`,
`display_options`, `draw_mouse`, `protocol`, `enable_nginx`) receive their
defaults only when the resolved `use_livestream` is truthy — with
`use_livestream` falsy, every livestream key absent from the file is left
unset. -/
theorem beforeAll_config_defaults (inp : BAInput) (cfg : List (String × Val)) (g : List Nat)
    (hex : inp.configExists = true) (hcfg : inp.configParse = some cfg)
    (hpl : parseLoop [] inp.models = .ok g) (hnd : (cfg.map Prod.fst).Nodup) :
    (∀ k v, (k, v) ∈ cfg → dictGet (before_all inp).1.attrs k = some v) ∧
    (∀ k dv, (k, dv) ∈ coreDefaults → k ∉ cfg.map Prod.fst →
      dictGet (before_all inp).1.attrs k = some dv) ∧
    (truthyAttr (before_all inp).1 "use_livestream" = true →
      ∀ k dv, (k, dv) ∈ livestreamDefaults → k ∉ cfg.map Prod.fst →
      dictGet (before_all inp).1.attrs k = some dv) ∧
    (truthyAttr (before_all inp).1 "use_livestream" = false →
      ∀ k dv, (k, dv) ∈ livestreamDefaults → k ∉ cfg.map Prod.fst →
      dictGet (before_all inp).1.attrs k = none) := by
  rw [before_all_eq hex hcfg hpl]
  have hbase_mem : ∀ k v, (k, v) ∈ cfg → dictGet (loadedCtx cfg g).attrs k = some v := by
    intro k v hkv
    show dictGet ((cfg.foldl (fun a p => ctxSet a p.1 p.2)
      ({ attrs := [], model_graph := none } : Ctx)).attrs) k = some v
    exact ctxFold_get_mem cfg _ k v hnd hkv
  have hbase_none : ∀ k, k ∉ cfg.map Prod.fst → dictGet (loadedCtx cfg g).attrs k = none := by
    intro k hk
    show dictGet ((cfg.foldl (fun a p => ctxSet a p.1 p.2)
      ({ attrs := [], model_graph := none } : Ctx)).attrs) k = none
    rw [ctxFold_get_not_mem cfg _ k hk]
    rfl
  have hdisj : ∀ x ∈ livestreamDefaults.map Prod.fst, x ∉ coreDefaults.map Prod.fst := by
    decide
  unfold applyDefaults
  by_cases ht : truthyAttr (setDefaults (loadedCtx cfg g) coreDefaults) "use_livestream"
  · simp only [ht, if_true]
    refine ⟨?_, ?_, ?_, ?_⟩
    · intro k v hkv
      exact setDefaults_get_some _ _ k v
        (setDefaults_get_some _ _ k v (hbase_mem k v hkv))
    · intro k dv hk hkc
      exact setDefaults_get_some _ _ k dv
        (setDefaults_fresh coreDefaults _ k dv (by decide) (hbase_none k hkc) hk)
    · intro _ k dv hk hkc
      have hkcore : k ∉ coreDefaults.map Prod.fst :=
        hdisj k (List.mem_map.mpr ⟨(k, dv), hk, rfl⟩)
      refine setDefaults_fresh livestreamDefaults _ k dv (by decide) ?_ hk
      rw [setDefaults_get_not_mem coreDefaults _ k hkcore]
      exact hbase_none k hkc
    · intro hf
      have hsame : truthyAttr (setDefaults (setDefaults (loadedCtx cfg g) coreDefaults)
          livestreamDefaults) "use_livestream" =
          truthyAttr (setDefaults (loadedCtx cfg g) coreDefaults) "use_livestream" :=
        truthyAttr_eq_of_get_eq
          (setDefaults_get_not_mem livestreamDefaults _ "use_livestream" (by decide))
      rw [hsame, ht] at hf
      exact absurd hf (by simp)
  · simp only [ht, Bool.false_eq_true, if_false]
    refine ⟨?_, ?_, ?_, ?_⟩
    · intro k v hkv
      exact setDefaults_get_some _ _ k v (hbase_mem k v hkv)
    · intro k dv hk hkc
      exact setDefaults_fresh coreDefaults _ k dv (by decide) (hbase_none k hkc) hk
    · intro ht' k dv hk hkc
      exact absurd ht' (by simp [ht])
    · intro _ k dv hk hkc
      have hkcore : k ∉ coreDefaults.map Prod.fst :=
        hdisj k (List.mem_map.mpr ⟨(k, dv), hk, rfl⟩)
      rw [setDefaults_get_not_mem coreDefaults _ k hkcore]
      exact hbase_none k hkc

/-- Witness for C7 (amended): a config key's value survives verbatim, an
absent core key gets its default, and with the resolved `use_livestream`
falsy an absent livestream key is left unset. -/
theorem beforeAll_config_defaults_witness :
    dictGet (before_all ⟨true, some [("headless", Val.vbool false)],
      [("u", "json-ld", ParseOutcome.ok [])]⟩).1.attrs "headless" =
      some (Val.vbool false) ∧
    dictGet (before_all ⟨true, some [("headless", Val.vbool false)],
      [("u", "json-ld", ParseOutcome.ok [])]⟩).1.attrs "render" =
      some (Val.vbool false) ∧
    dictGet (before_all ⟨true, some [("headless", Val.vbool false)],
      [("u", "json-ld", ParseOutcome.ok [])]⟩).1.attrs "width" = none := by
  have h := beforeAll_config_defaults ⟨true, some [("headless", Val.vbool false)],
    [("u", "json-ld", ParseOutcome.ok [])]⟩ [("headless", Val.vbool false)] []
    rfl rfl rfl (by decide)
  exact ⟨h.1 "headless" (Val.vbool false) (by decide),
    h.2.1 "render" (Val.vbool false) (by decide) (by decide),
    h.2.2.2 (by decide) "width" (Val.vint 1280) (by decide) (by decide)⟩

/-- C10: once the resolved configuration has a truthy `use_livestream`,
`before_all` ends in one of the two livestream assertion errors exactly when
`render` and `headless` are not both the Python constant `True`; with
`use_livestream` falsy the run imposes no such requirement and succeeds. -/
theorem beforeAll_livestream_asserts (inp : BAInput) (cfg : List (String × Val)) (g : List Nat)
    (hex : inp.configExists = true) (hcfg : inp.configParse = some cfg)
    (hpl : parseLoop [] inp.models = .ok g) :
    (truthyAttr (before_all inp).1 "use_livestream" = true →
      (((before_all inp).2 = some BAErr.assertRenderLivestream ∨
        (before_all inp).2 = some BAErr.assertHeadlessLivestream) ↔
        ¬(dictGet (before_all inp).1.attrs "render" = some (Val.vbool true) ∧
          dictGet (before_all inp).1.attrs "headless" = some (Val.vbool true)))) ∧
    (truthyAttr (before_all inp).1 "use_livestream" = false →
      (before_all inp).2 = none) := by
  rw [before_all_eq hex hcfg hpl]
  unfold applyDefaults
  by_cases ht : truthyAttr (setDefaults (loadedCtx cfg g) coreDefaults) "use_livestream"
  · simp only [ht, if_true]
    constructor
    · intro _
      by_cases hr : dictGet (setDefaults (setDefaults (loadedCtx cfg g) coreDefaults)
          livestreamDefaults).attrs "render" = some (Val.vbool true)
      · by_cases hh : dictGet (setDefaults (setDefaults (loadedCtx cfg g) coreDefaults)
            livestreamDefaults).attrs "headless" = some (Val.vbool true)
        · simp [hr, hh]
        · simp [hr, hh]
      · simp [hr]
    · intro hf
      have : truthyAttr (setDefaults (setDefaults (loadedCtx cfg g) coreDefaults)
          livestreamDefaults) "use_livestream" =
          truthyAttr (setDefaults (loadedCtx cfg g) coreDefaults) "use_livestream" :=
        truthyAttr_eq_of_get_eq
          (setDefaults_get_not_mem livestreamDefaults _ "use_livestream" (by decide))
      rw [this, ht] at hf
      exact absurd hf (by simp)
  · simp only [ht, Bool.false_eq_true, if_false]
    constructor
    · intro h
      exact absurd h (by simp [ht])
    · intro _
      trivial

/-- Witness for C10: a truthy `use_livestream` with defaulted
`render = False` fails the render assertion. -/
theorem beforeAll_livestream_asserts_witness :
    (before_all ⟨true, some [("use_livestream", Val.vbool true)], []⟩).2 =
        some BAErr.assertRenderLivestream ∨
    (before_all ⟨true, some [("use_livestream", Val.vbool true)], []⟩).2 =
        some BAErr.assertHeadlessLivestream :=
  ((beforeAll_livestream_asserts ⟨true, some [("use_livestream", Val.vbool true)], []⟩
    [("use_livestream", Val.vbool true)] [] rfl rfl rfl).1 (by decide)).mpr (by decide)

theorem dictSet_get_self {α : Type} :
    ∀ {d : List (String × α)} {k : String} {v : α},
      dictGet d k = some v → dictSet d k v = d := by
  intro d
  induction d with
  | nil => intro k v h; simp [dictGet] at h
  | cons hd tl ih =>
    intro k v h
    obtain ⟨k', v'⟩ := hd
    by_cases hk : k' = k
    · subst hk
      have h' : some v' = some v := by simpa [dictGet] using h
      obtain rfl : v' = v := by injection h'
      simp [dictSet]
    · simp only [dictGet, hk, if_neg, not_false_iff] at h
      simp [dictSet, hk, ih h]

theorem dictSet_dictSet {α : Type} :
    ∀ (d : List (String × α)) (k : String) (v w : α),
      dictSet (dictSet d k v) k w = dictSet d k w := by
  intro d
  induction d with
  | nil => intro k v w; simp [dictSet]
  | cons hd tl ih =>
    intro k v w
    obtain ⟨k', v'⟩ := hd
    by_cases hk : k' = k
    · simp [dictSet, hk]
    · simp [dictSet, hk, ih]

theorem step_pair_ok (clock : Nat → Int) (c : FCtx) (st : BStep) (cl0 : List PyVal)
    (h : dictGet c.log_data c.scenarioName = some (.pdict [("clauses", .plist cl0)])) :
    after_step clock (before_step clock c st) st = .ok
      { c with
        log_data := dictSet c.log_data c.scenarioName
          (.pdict [("clauses", .plist (cl0 ++
            [mkClause st (clock (c.tick + 1) - clock c.tick)]))]),
        step_debug_info := [("name", .pstr st.name), ("keyword", .pstr st.keyword),
          ("fail_info", .pdict []),
          ("exec_time", .pint (clock (c.tick + 1) - clock c.tick)),
          ("status", .pstr st.statusName)],
        step_start := clock c.tick,
        tick := c.tick + 2 } := by
  dsimp only [before_step, after_step, procTime]
  rw [h]
  rfl

theorem after_scenario_ok (clock : Nat → Int) (c : FCtx) (s : BScenario)
    (sd : List (String × PyVal)) (h : dictGet c.log_data s.name = some (.pdict sd)) :
    after_scenario clock c s = .ok
      { c with
        log_data := dictSet c.log_data s.name
          (.pdict (dictSet sd "exec_time" (.pint (clock c.tick - c.scenario_start_time)))),
        tick := c.tick + 1 } := by
  dsimp only [after_scenario, procTime]
  rw [h]

theorem runSteps_spec (clock : Nat → Int) :
    ∀ (steps : List BStep) (c : FCtx) (cl0 : List PyVal),
      dictGet c.log_data c.scenarioName = some (.pdict [("clauses", .plist cl0)]) →
      ∃ c' times, runSteps clock c steps = .ok c' ∧
        times.length = steps.length ∧
        c'.log_data = dictSet c.log_data c.scenarioName
          (.pdict [("clauses", .plist (cl0 ++ List.zipWith mkClause steps times))]) ∧
        c'.scenarioName = c.scenarioName ∧
        c'.scenario_start_time = c.scenario_start_time := by
  intro steps
  induction steps with
  | nil =>
    intro c cl0 h
    refine ⟨c, [], rfl, rfl, ?_, rfl, rfl⟩
    rw [List.zipWith_nil_right, List.append_nil, dictSet_get_self h]
  | cons st rest ih =>
    intro c cl0 h
    have hpair := step_pair_ok clock c st cl0 h
    have hrw : runSteps clock c (st :: rest) =
        (after_step clock (before_step clock c st) st).bind
          (fun c2 => runSteps clock c2 rest) := rfl
    obtain ⟨c', times, hrun, hlen, hld, hscn, hsst⟩ := ih
      { c with
        log_data := dictSet c.log_data c.scenarioName
          (.pdict [("clauses", .plist (cl0 ++
            [mkClause st (clock (c.tick + 1) - clock c.tick)]))]),
        step_debug_info := [("name", .pstr st.name), ("keyword", .pstr st.keyword),
          ("fail_info", .pdict []),
          ("exec_time", .pint (clock (c.tick + 1) - clock c.tick)),
          ("status", .pstr st.statusName)],
        step_start := clock c.tick,
        tick := c.tick + 2 }
      (cl0 ++ [mkClause st (clock (c.tick + 1) - clock c.tick)])
      (dictGet_dictSet_self _ _ _)
    refine ⟨c', (clock (c.tick + 1) - clock c.tick) :: times, ?_, ?_, ?_, hscn, hsst⟩
    · rw [hrw, hpair]
      exact hrun
    · simp [hlen]
    · rw [hld]
      show dictSet (dictSet c.log_data c.scenarioName _) c.scenarioName _ = _
      rw [dictSet_dictSet, List.append_assoc]
      rfl

theorem runScenario_spec (clock : Nat → Int) (c : FCtx) (s : BScenario)
    (h : dictGet c.log_data s.name = none) :
    ∃ c' times e, runScenario clock c s = .ok c' ∧
      times.length = s.steps.length ∧
      c'.log_data = c.log_data ++
        [(s.name, .pdict [("clauses", .plist (List.zipWith mkClause s.steps times)),
          ("exec_time", .pint e)])] := by
  have hbs : (before_scenario clock c s).log_data =
      dictSet c.log_data s.name (.pdict [("clauses", .plist [])]) := rfl
  have hbs_name : (before_scenario clock c s).scenarioName = s.name := rfl
  have hget : dictGet (before_scenario clock c s).log_data
      (before_scenario clock c s).scenarioName = some (.pdict [("clauses", .plist [])]) := by
    rw [hbs, hbs_name]
    exact dictGet_dictSet_self _ _ _
  obtain ⟨c2, times, hrun, hlen, hld, hscn, hsst⟩ :=
    runSteps_spec clock s.steps (before_scenario clock c s) [] hget
  have hld2 : c2.log_data = dictSet c.log_data s.name
      (.pdict [("clauses", .plist (List.zipWith mkClause s.steps times))]) := by
    rw [hld, hbs, hbs_name, dictSet_dictSet]
    rfl
  have hget2 : dictGet c2.log_data s.name =
      some (.pdict [("clauses", .plist (List.zipWith mkClause s.steps times))]) := by
    rw [hld2]
    exact dictGet_dictSet_self _ _ _
  have hras := after_scenario_ok clock c2 s _ hget2
  refine ⟨{ c2 with
      log_data := dictSet c2.log_data s.name
        (.pdict (dictSet [("clauses", .plist (List.zipWith mkClause s.steps times))]
          "exec_time" (.pint (clock c2.tick - c2.scenario_start_time)))),
      tick := c2.tick + 1 }, times, clock c2.tick - c2.scenario_start_time, ?_, hlen, ?_⟩
  · unfold runScenario
    show (runSteps clock (before_scenario clock c s) s.steps).bind
      (fun c2 => after_scenario clock c2 s) = _
    rw [hrun]
    show after_scenario clock c2 s = _
    exact hras
  · show dictSet c2.log_data s.name _ = _
    rw [hld2, dictSet_dictSet, dictSet_of_get_none h]
    rfl

theorem runScenarios_spec (clock : Nat → Int) :
    ∀ (ss : List BScenario) (c : FCtx),
      (ss.map BScenario.name).Nodup →
      (∀ s ∈ ss, dictGet c.log_data s.name = none) →
      ∃ c' post, runScenarios clock c ss = .ok c' ∧
        c'.log_data = c.log_data ++ post ∧
        post.map Prod.fst = ss.map BScenario.name ∧
        ∀ s ∈ ss, ∃ times e, times.length = s.steps.length ∧
          dictGet post s.name = some (.pdict
            [("clauses", .plist (List.zipWith mkClause s.steps times)),
             ("exec_time", .pint e)]) := by
  intro ss
  induction ss with
  | nil =>
    intro c _ _
    exact ⟨c, [], rfl, (List.append_nil _).symm, rfl, by simp⟩
  | cons s rest ih =>
    intro c hnd hfresh
    simp only [List.map_cons, List.nodup_cons] at hnd
    obtain ⟨c1, times, e, hrun1, hlen, hld1⟩ := runScenario_spec clock c s
      (hfresh s (List.mem_cons_self _ _))
    have hfresh1 : ∀ s' ∈ rest, dictGet c1.log_data s'.name = none := by
      intro s' hs'
      have hne : s.name ≠ s'.name := by
        intro heq
        exact hnd.1 (heq ▸ List.mem_map.mpr ⟨s', hs', rfl⟩)
      rw [hld1, dictGet_append_of_none _ (hfresh s' (List.mem_cons_of_mem _ hs'))]
      simp [dictGet, hne]
    obtain ⟨c', post, hrun, hld, hkeys, hmem⟩ := ih c1 hnd.2 hfresh1
    refine ⟨c', (s.name, .pdict [("clauses", .plist (List.zipWith mkClause s.steps times)),
      ("exec_time", .pint e)]) :: post, ?_, ?_, ?_, ?_⟩
    · show (runScenario clock c s).bind (fun c1 => runScenarios clock c1 rest) = .ok c'
      rw [hrun1]
      exact hrun
    · rw [hld, hld1, List.append_assoc]
      rfl
    · simp [hkeys]
    · intro s' hs'
      rcases List.mem_cons.mp hs' with rfl | hs'
      · exact ⟨times, e, hlen, by simp [dictGet]⟩
      · obtain ⟨t', e', hl', hg'⟩ := hmem s' hs'
        refine ⟨t', e', hl', ?_⟩
        have hne : s.name ≠ s'.name := fun heq =>
          hnd.1 (heq ▸ List.mem_map.mpr ⟨s', hs', rfl⟩)
        simpa [dictGet, hne] using hg'

/-- C1 (amended): after a feature's scenarios and steps have run, the data
serialized by `after_feature` is `context.log_data`, a JSON object keyed by
scenario name; every scenario's value holds exactly the keys `clauses` — a
list with one entry per executed step, each entry holding `name`, `keyword`,
`fail_info`, `exec_time` and `status` — and `exec_time`.  The keys
`start_time_unix`, `end_time_unix` and `behave_exec_time` are never
written. -/
theorem log_format_after_feature (clock : Nat → Int) (c0 : FCtx) (ss : List BScenario)
    (hnd : (ss.map BScenario.name).Nodup) :
    ∃ c, runFeature clock c0 ss = .ok c ∧
      (∀ validVar fn ts, (after_feature c validVar fn ts).2 = .pdict c.log_data) ∧
      c.log_data.map Prod.fst = ss.map BScenario.name ∧
      (∀ st t, pyKeys (mkClause st t) =
        ["name", "keyword", "fail_info", "exec_time", "status"]) ∧
      ∀ s ∈ ss, ∃ times e, times.length = s.steps.length ∧
        (List.zipWith mkClause s.steps times).length = s.steps.length ∧
        dictGet c.log_data s.name = some (.pdict
          [("clauses", .plist (List.zipWith mkClause s.steps times)),
           ("exec_time", .pint e)]) := by
  obtain ⟨c', post, hrun, hld, hkeys, hmem⟩ :=
    runScenarios_spec clock ss (before_feature c0) hnd (fun s _ => rfl)
  refine ⟨c', hrun, fun _ _ _ => rfl, ?_, fun st t => rfl, ?_⟩
  · rw [hld]
    show (([] : List (String × PyVal)) ++ post).map Prod.fst = _
    rw [List.nil_append]
    exact hkeys
  · intro s hs
    obtain ⟨times, e, hlen, hget⟩ := hmem s hs
    refine ⟨times, e, hlen, ?_, ?_⟩
    · rw [List.length_zipWith, hlen, Nat.min_self]
    · rw [hld]
      show dictGet (([] : List (String × PyVal)) ++ post) s.name = _
      rw [List.nil_append]
      exact hget

/-- C1 counterexample: a concrete one-scenario, one-step feature run whose
scenario log entry holds exactly the keys `clauses` and `exec_time` — the
keys `start_time_unix`, `end_time_unix` and `behave_exec_time` claimed by
the spec are absent. -/
theorem log_missing_time_keys :
    (runFeature (fun _ => (0 : Int)) ⟨[], 0, [], 0, "", 0⟩
        [⟨"s", [⟨"st", "Given", "passed"⟩]⟩]).toOption.bind
      (fun c => (dictGet c.log_data "s").map pyKeys) = some ["clauses", "exec_time"] ∧
    "start_time_unix" ∉ (["clauses", "exec_time"] : List String) ∧
    "end_time_unix" ∉ (["clauses", "exec_time"] : List String) ∧
    "behave_exec_time" ∉ (["clauses", "exec_time"] : List String) := by
  refine ⟨rfl, ?_, ?_, ?_⟩ <;> decide

/-- Witness for C1 (amended) at a concrete two-scenario feature. -/
theorem log_format_after_feature_witness :
    ∃ c, runFeature (fun _ => (0 : Int)) ⟨[], 0, [], 0, "", 0⟩
        [⟨"a", [⟨"st", "Given", "passed"⟩]⟩, ⟨"b", []⟩] = .ok c ∧
      c.log_data.map Prod.fst = ["a", "b"] := by
  obtain ⟨c, hrun, -, hkeys, -, -⟩ := log_format_after_feature (fun _ => (0 : Int))
    ⟨[], 0, [], 0, "", 0⟩ [⟨"a", [⟨"st", "Given", "passed"⟩]⟩, ⟨"b", []⟩] (by decide)
  exact ⟨c, hrun, hkeys⟩
